import Mathlib

/-!
Shallow embedding of `rest.go` from go-rest/rest: a small HTTP verb
dispatcher.  Go values are modelled as plain Lean data, the `http.ResponseWriter`
as a list of observable events, errors as an inductive covering the one
concrete error type of the package (`StatusError`) plus every other error
(identified by its `Error()` message), and the two external collaborators
(the httprequest parameter binder and the handler's verb methods) as
function-valued parameters.
-/

namespace Rest

/-- `StatusError` (rest.go lines 219-222): message plus HTTP status code.
The json struct tags name the fields `message` and `statusCode`. -/
structure StatusError where
  Err : String
  StatusCode : Int
deriving DecidableEq

/-- A Go `error` value as seen by this package: either the concrete type
`StatusError`, or any other error carrying only its `Error()` message. -/
inductive GoError where
  | statusErr (h : StatusError)
  | plain (msg : String)
deriving DecidableEq

/-- The `Error()` method: `StatusError.Error` returns `h.Err` (rest.go 224-226);
for every other error, its message. -/
def goErrError : GoError → String
  | .statusErr h => h.Err
  | .plain m => m

/-- `NewStatusError` (rest.go 228-230). -/
def NewStatusError (err : String) (statusCode : Int) : GoError :=
  .statusErr { Err := err, StatusCode := statusCode }

/-- The type assertion `err.(StatusError)`: succeeds exactly when the dynamic
type is `StatusError`. -/
def asStatusError : GoError → Option StatusError
  | .statusErr h => some h
  | .plain _ => none

/-- Lower-case hex digit, used by the JSON encoder for control characters. -/
def hexDigit (n : Nat) : Char :=
  if n < 10 then Char.ofNat (48 + n) else Char.ofNat (87 + n)

/-- How Go's `encoding/json` encoder (with default HTML escaping) renders one
character inside a JSON string literal. -/
def jsonEscapeChar (c : Char) : List Char :=
  if c = '"' then ['\\', '"']
  else if c = '\\' then ['\\', '\\']
  else if c = '\n' then ['\\', 'n']
  else if c = '\r' then ['\\', 'r']
  else if c = '\t' then ['\\', 't']
  else if c = '<' then ['\\', 'u', '0', '0', '3', 'c']
  else if c = '>' then ['\\', 'u', '0', '0', '3', 'e']
  else if c = '&' then ['\\', 'u', '0', '0', '2', '6']
  else if c.toNat < 32 then ['\\', 'u', '0', '0', hexDigit (c.toNat / 16), hexDigit (c.toNat % 16)]
  else if c.toNat = 8232 then ['\\', 'u', '2', '0', '2', '8']
  else if c.toNat = 8233 then ['\\', 'u', '2', '0', '2', '9']
  else [c]

/-- JSON string literal for `s`. -/
def jsonQuote (s : String) : String :=
  ⟨'"' :: (s.data.flatMap jsonEscapeChar) ++ ['"']⟩

/-- What `json.NewEncoder(w).Encode(herr)` writes for a `StatusError`: the
object with fields `message` and `statusCode` (in struct-tag order) followed by
the encoder's trailing newline. -/
def statusErrorJSON (h : StatusError) : String :=
  "\x7b\"message\":" ++ jsonQuote h.Err ++ ",\"statusCode\":" ++ toString h.StatusCode ++ "\x7d\n"

/-- UTF-8 encoding of one character, as Go's `[]byte(s)` conversion produces. -/
def charUtf8 (c : Char) : List Nat :=
  let n := c.toNat
  if n < 128 then [n]
  else if n < 2048 then [192 + n / 64, 128 + n % 64]
  else if n < 65536 then [224 + n / 4096, 128 + (n / 64) % 64, 128 + n % 64]
  else [240 + n / 262144, 128 + (n / 4096) % 64, 128 + (n / 64) % 64, 128 + n % 64]

/-- The bytes of a string, Go's `[]byte(s)`. -/
def strBytes (s : String) : List Nat :=
  s.data.flatMap charUtf8

/-- Observable effects on the `http.ResponseWriter`. -/
inductive Ev where
  | setHeader (k v : String)
  | writeHeader (code : Int)
  | write (b : List Nat)
deriving DecidableEq

/-- The coercion step of `serveError` (rest.go 138-141): use the error as-is
when it already is a `StatusError`, otherwise wrap its message with status 400
(`http.StatusBadRequest`) via `NewStatusError`. -/
def serveErrorStatus (e : GoError) : StatusError :=
  match asStatusError e with
  | some herr => herr
  | none =>
    match NewStatusError (goErrError e) 400 with
    | .statusErr herr => herr
    | .plain m => { Err := m, StatusCode := 400 }

/-- `serveError` (rest.go 137-144): write the status line, then the JSON
encoding of the coerced `StatusError`. -/
def serveErrorEvents (e : GoError) : List Ev :=
  let herr := serveErrorStatus e
  [Ev.writeHeader herr.StatusCode, Ev.write (strBytes (statusErrorJSON herr))]

/-- Does `pat` occur as a contiguous sublist?  Go's `strings.Contains`. -/
def listContains (pat : List Char) : List Char → Bool
  | [] => pat.isEmpty
  | c :: rest => pat.isPrefixOf (c :: rest) || listContains pat rest

/-- `strings.Contains(s, sub)`. -/
def goContains (s sub : String) : Bool :=
  listContains sub.toList s.toList

/-- `strings.ToLower` (the Accept values negotiated here are ASCII). -/
def goToLower (s : String) : String :=
  ⟨s.data.map Char.toLower⟩

/-- The dynamic type and encoding behaviour of a handler result value `v`:
either a byte slice, a string, or any other value, for which we record the
outcome of `json.Encode(v)` and, when the value implements `proto.Message`,
the outcome of `proto.Marshal(v)`. -/
inductive RVal where
  | bytes (b : List Nat)
  | str (s : String)
  | other (j : Except GoError String) (p : Option (Except GoError (List Nat)))

/-- `json.NewEncoder(w).Encode(v)` followed by the error check
(rest.go 112-116 and 121-125): write the encoding, or serve the encode error. -/
def jsonEvents : Except GoError String → List Ev
  | .ok s => [Ev.write (strBytes s)]
  | .error e => serveErrorEvents e

/-- The response-encoding tail of `handler.handle` (rest.go 100-135), given the
request's Accept header and the successful result `v` (`none` is a nil
interface result, which fails both raw casts and the `proto.Message` cast and
JSON-encodes as `null`). -/
def encodeEvents (accept : String) : Option RVal → List Ev
  | some (.bytes b) => [Ev.write b]
  | some (.str s) => [Ev.write (strBytes s)]
  | some (.other j p) =>
    if goContains (goToLower accept) "application/x-protobuf" = false then
      jsonEvents j
    else
      match p with
      | none => jsonEvents j
      | some (.error e) => serveErrorEvents e
      | some (.ok b) => [Ev.setHeader "Content-Type" "application/x-protobuf", Ev.write b]
  | none => [Ev.write (strBytes "null\n")]

/-- The request data `handler.handle` and `handler.serve` read: method, the
request URI and the Accept header. -/
structure Req where
  method : String
  requestURI : String
  accept : String
deriving DecidableEq

/-- `RestFunc` (rest.go 64): middleware of shape `(ctx, *http.Request) -> (ctx, error)`,
over an abstract context type. -/
def MW (κ : Type) : Type :=
  κ → Req → κ × Option GoError

/-- The middleware loop of `handler.handle` (rest.go 80-86): thread the context
through the chain in order; the first error stops the loop. -/
def chainRun {κ : Type} (mws : List (MW κ)) (ctx : κ) (r : Req) : κ × Option GoError :=
  match mws with
  | [] => (ctx, none)
  | f :: rest =>
    match f ctx r with
    | (c, some e) => (c, some e)
    | (c, none) => chainRun rest c r

/-- The two unconditional header writes of `handler.handle` (rest.go 76-77). -/
def hdrEvents : List Ev :=
  [Ev.setHeader "Content-Type" "application/json; charset=utf-8",
   Ev.setHeader "Access-Control-Allow-Origin" "*"]

/-- `handler.handle` (rest.go 71-135) with the `serve` stage abstracted as a
function of the post-chain context (both arms of the `IsDevAppServer` branch
call it identically).  Returns the sequence of response-writer events. -/
def handleEvents {κ : Type} (mws : List (MW κ)) (serveFn : κ → Option RVal × Option GoError)
    (ctx0 : κ) (r : Req) : List Ev :=
  hdrEvents ++
    match chainRun mws ctx0 r with
    | (_, some e) => serveErrorEvents e
    | (ctx, none) =>
      match serveFn ctx with
      | (_, some e) => serveErrorEvents e
      | (v, none) => encodeEvents r.accept v

/-- The httprequest parameter binder (external collaborator), as an oracle.
`Unmarshal(params, target)` receives a pointer whose current contents matter
(in the retry, the slice has been resized to one element), so each oracle maps
the target's current value to an error or its bound value. -/
structure Binder (α : Type) where
  bindStruct : α → Except GoError α
  bindSlice : List α → Except GoError (List α)

/-- The registered prototype `handler.impl`, classified the way the reflection
in `handler.serve` (rest.go 147-161) classifies it: a pointer to a struct-kind
value (possibly nil), a pointer to a slice (possibly nil), or a non-pointer
value, which is dispatched as-is with no instance construction or binding. -/
inductive Proto (α : Type) where
  | ptrStruct (v : Option α)
  | ptrSlice (v : Option (List α))
  | value (v : α)

/-- The value `impl.Interface()` dispatched on after binding. -/
inductive Bound (α : Type) where
  | ptrStruct (v : α)
  | ptrSlice (v : List α)
  | value (v : α)
deriving DecidableEq

/-- Instance construction plus parameter binding of `handler.serve`
(rest.go 147-176).  `zero` is the zero value of the struct kind.  In the slice
retry path, the code resizes the fresh slice to `MakeSlice(ty, 1, 1)` (one zero
element), allocates `z := reflect.New(elemType)` — which is never passed to
`Unmarshal` — calls `Unmarshal` on the slice pointer again, and finally stores
`reflect.Indirect(z)`, still the zero element, at index 0. -/
def serveBind {α : Type} (zero : α) (B : Binder α) : Proto α → Except GoError (Bound α)
  | .ptrStruct v =>
    let fresh := match v with
      | some x => x
      | none => zero
    match B.bindStruct fresh with
    | .error e => .error e
    | .ok x => .ok (.ptrStruct x)
  | .ptrSlice v =>
    let fresh := match v with
      | some xs => xs
      | none => []
    match B.bindSlice fresh with
    | .ok xs => .ok (.ptrSlice xs)
    | .error _ =>
      match B.bindSlice [zero] with
      | .error e => .error e
      | .ok xs => .ok (.ptrSlice (xs.set 0 zero))
  | .value v => .ok (.value v)

/-- Which of the four capability interfaces the dispatched value's dynamic type
implements, and the verb methods themselves.  One record per registration: the
per-request instance has the same dynamic type as the prototype, so the same
record governs `Handle`'s registration-time checks and `serve`'s per-request
re-checks. -/
structure Methods (β ρ κ : Type) where
  get : Option (β → κ → Option ρ × Option GoError)
  post : Option (β → κ → Option ρ × Option GoError)
  put : Option (β → κ → Option ρ × Option GoError)
  delete : Option (β → κ → Option ρ × Option GoError)

/-- The error built by `fmt.Errorf` at rest.go 200. -/
def unsupportedErr (r : Req) : GoError :=
  .plain (r.method ++ " unsupported method for " ++ r.requestURI)

/-- The verb-dispatch switch of `handler.serve` (rest.go 179-200): each case
checks the matching capability; a missing capability, or a method outside the
four cases, falls through to the `fmt.Errorf` return. -/
def dispatch {β ρ κ : Type} (M : Methods β ρ κ) (b : β) (ctx : κ) (r : Req) :
    Option ρ × Option GoError :=
  match r.method with
  | "GET" =>
    match M.get with
    | some f => f b ctx
    | none => (none, some (unsupportedErr r))
  | "POST" =>
    match M.post with
    | some f => f b ctx
    | none => (none, some (unsupportedErr r))
  | "PUT" =>
    match M.put with
    | some f => f b ctx
    | none => (none, some (unsupportedErr r))
  | "DELETE" =>
    match M.delete with
    | some f => f b ctx
    | none => (none, some (unsupportedErr r))
  | _ => (none, some (unsupportedErr r))

/-- The capability the switch consults for a given method string. -/
def capFor {β ρ κ : Type} (M : Methods β ρ κ) : String → Option (β → κ → Option ρ × Option GoError)
  | "GET" => M.get
  | "POST" => M.post
  | "PUT" => M.put
  | "DELETE" => M.delete
  | _ => none

/-- `handler.serve` (rest.go 146-201): bind, then dispatch. -/
def serve {α ρ κ : Type} (zero : α) (B : Binder α) (M : Methods (Bound α) ρ κ)
    (p : Proto α) (ctx : κ) (r : Req) : Option ρ × Option GoError :=
  match serveBind zero B p with
  | .error e => (none, some e)
  | .ok b => dispatch M b ctx r

/-- One entry the router holds: the wrapped `handler` struct (rest.go 66-69),
its capability record, and its middleware slice. -/
structure HEntry (α ρ κ : Type) where
  impl : Proto α
  methods : Methods (Bound α) ρ κ
  middleware : List (MW κ)

/-- `ServeMux` (rest.go 18-21) with the httprouter's four verb tables made
explicit as registration lists. -/
structure ServeMuxM (α ρ κ : Type) where
  getRoutes : List (String × HEntry α ρ κ)
  postRoutes : List (String × HEntry α ρ κ)
  putRoutes : List (String × HEntry α ρ κ)
  deleteRoutes : List (String × HEntry α ρ κ)
  middleware : List (MW κ)

/-- `New` (rest.go 23-29): an empty router plus the mux-wide middleware. -/
def ServeMuxM.new {α ρ κ : Type} (options : List (MW κ)) : ServeMuxM α ρ κ :=
  { getRoutes := [], postRoutes := [], putRoutes := [], deleteRoutes := [],
    middleware := options }

/-- `ServeMux.Handle` (rest.go 34-49): build the handler with
`append(mux.middleware, options...)`, then register it on each verb table whose
capability interface the prototype's dynamic type implements. -/
def ServeMuxM.Handle {α ρ κ : Type} (mux : ServeMuxM α ρ κ) (path : String)
    (impl : Proto α) (M : Methods (Bound α) ρ κ) (options : List (MW κ)) :
    ServeMuxM α ρ κ :=
  let m := mux.middleware ++ options
  let h : HEntry α ρ κ := { impl := impl, methods := M, middleware := m }
  let mux1 := if M.get.isSome then
      { mux with getRoutes := mux.getRoutes ++ [(path, h)] } else mux
  let mux2 := if M.post.isSome then
      { mux1 with postRoutes := mux1.postRoutes ++ [(path, h)] } else mux1
  let mux3 := if M.put.isSome then
      { mux2 with putRoutes := mux2.putRoutes ++ [(path, h)] } else mux2
  if M.delete.isSome then
    { mux3 with deleteRoutes := mux3.deleteRoutes ++ [(path, h)] } else mux3

/-- A heap cell: the value a pointer's target holds (struct kind or slice
kind).  Used by the heap-instrumented rendering of `handler.serve`, which
tracks which allocation each reflect operation touches. -/
inductive Cell (α : Type) where
  | structC (v : α)
  | sliceC (vs : List α)
deriving DecidableEq

/-- A heap: cell contents per address, plus the next fresh address. -/
structure St (α : Type) where
  mem : Nat → Cell α
  next : Nat

/-- Store `c` at address `a`. -/
def St.write {α : Type} (st : St α) (a : Nat) (c : Cell α) : St α :=
  { st with mem := fun i => if i = a then c else st.mem i }

/-- Allocate a fresh cell holding `c` (what `reflect.New` does, zero-filled by
its caller's choice of `c`); returns the new heap and the fresh address. -/
def St.alloc {α : Type} (st : St α) (c : Cell α) : St α × Nat :=
  ({ mem := fun i => if i = st.next then c else st.mem i, next := st.next + 1 }, st.next)

/-- Instance construction of `handler.serve` (rest.go 148-155) on the heap:
the prototype is a possibly-nil pointer (`none`) or an address.  Nil gives
`impl = reflect.New(elemType)`, a fresh zero value; otherwise `reflect.New`
followed by `impl.Elem().Set(orig.Elem())`, a fresh shallow copy of the
pointed-to value. -/
def freshInstance {α : Type} (zeroCell : Cell α) (st : St α) (p : Option Nat) : St α × Nat :=
  match p with
  | none => st.alloc zeroCell
  | some a =>
    let orig := st.mem a
    let fr := st.alloc zeroCell
    (fr.1.write fr.2 orig, fr.2)

/-- `httprequest.Unmarshal` on the pointer's target cell. -/
def bindCell {α : Type} (B : Binder α) : Cell α → Except GoError (Cell α)
  | .structC v => (B.bindStruct v).map .structC
  | .sliceC vs => (B.bindSlice vs).map .sliceC

/-- The binding block of `handler.serve` (rest.go 156-175) on the heap, for a
fresh instance at `addr`: unmarshal in place; on failure over a slice kind,
resize to a one-element zero slice, allocate `z`, unmarshal the slice pointer
again, and overwrite index 0 with `reflect.Indirect(z)` (the zero element). -/
def bindPhase {α : Type} (zeroElem : α) (B : Binder α)
    (st1 : St α) (addr : Nat) : St α × Option GoError :=
  match bindCell B (st1.mem addr) with
  | .ok c => (st1.write addr c, none)
  | .error e =>
    match st1.mem addr with
    | .structC _ => (st1, some e)
    | .sliceC _ =>
      let st2 := st1.write addr (Cell.sliceC [zeroElem])
      let za := st2.alloc (Cell.structC zeroElem)
      match bindCell B (za.1.mem addr) with
      | .error e2 => (za.1, some e2)
      | .ok c =>
        let st4 := za.1.write addr c
        match st4.mem addr with
        | Cell.sliceC vs => (st4.write addr (Cell.sliceC (vs.set 0 zeroElem)), none)
        | _ => (st4, none)

/-- Instance construction plus binding of `handler.serve` (rest.go 147-176) on
the heap, for a pointer-held prototype `p`. -/
def serveBindSt {α : Type} (zeroCell : Cell α) (zeroElem : α) (B : Binder α)
    (st : St α) (p : Option Nat) : St α × Nat × Option GoError :=
  let fr := freshInstance zeroCell st p
  let out := bindPhase zeroElem B fr.1 fr.2
  (out.1, fr.2, out.2)

/-! ### Concrete fixtures used by witness theorems -/

/-- Middleware that increments a counter context and succeeds. -/
def mwInc : MW Nat := fun c _ => (c + 1, none)

/-- Middleware that fails with a plain error. -/
def mwBoom : MW Nat := fun c _ => (c, some (GoError.plain "boom"))

/-- A serve stage that produces a nil result and no error. -/
def serveFnW : Nat → Option RVal × Option GoError := fun _ => (none, none)

/-- A concrete GET request. -/
def reqGET : Req := { method := "GET", requestURI := "/hello", accept := "" }

/-- A concrete request whose method is outside GET/POST/PUT/DELETE. -/
def reqPATCH : Req := { method := "PATCH", requestURI := "/p", accept := "" }

/-- A binder for which binding the whole slice fails but binding into the
resized one-element slice succeeds, producing the bound element `Alice`. -/
def bugBinder : Binder String :=
  { bindStruct := fun _ => Except.error (GoError.plain "struct bind unsupported"),
    bindSlice := fun vs =>
      match vs with
      | [] => Except.error (GoError.plain "empty slice bind failed")
      | [_] => Except.ok ["Alice"]
      | _ => Except.error (GoError.plain "unexpected shape") }

/-- A binder that accepts every target unchanged. -/
def idBinder : Binder String :=
  { bindStruct := fun v => Except.ok v, bindSlice := fun vs => Except.ok vs }

/-- A capability record implementing none of the four verb interfaces. -/
def noMethods : Methods (Bound String) Unit Nat :=
  { get := none, post := none, put := none, delete := none }

/-- A capability record implementing only `Getter`. -/
def getOnlyMethods : Methods (Bound String) Unit Nat :=
  { get := some (fun _ _ => (none, none)), post := none, put := none, delete := none }

/-- A prototype value for registration fixtures. -/
def protoW : Proto String := Proto.value "w"

/-- An empty mux fixture. -/
def muxW : ServeMuxM String Unit Nat := ServeMuxM.new []

/-- A one-cell heap whose single live cell is a prototype struct. -/
def stW : St String := { mem := fun _ => Cell.structC "proto", next := 1 }

/-! ### Helper lemmas -/

/-- Running a concatenated middleware chain: run the first part; only if it
succeeds does the second part run, from the context the first part produced. -/
theorem chainRun_append {κ : Type} (ms1 ms2 : List (MW κ)) (ctx : κ) (r : Req) :
    chainRun (ms1 ++ ms2) ctx r =
      match chainRun ms1 ctx r with
      | (c, none) => chainRun ms2 c r
      | (c, some e) => (c, some e) := by
  induction ms1 generalizing ctx with
  | nil => rfl
  | cons f rest ih =>
    simp only [List.cons_append, chainRun]
    rcases f ctx r with ⟨c, e⟩
    cases e with
    | none => simpa using ih c
    | some e => rfl

/-- `serveError` never sets a header. -/
theorem setHeader_not_mem_serveErrorEvents (e : GoError) (k v : String) :
    Ev.setHeader k v ∉ serveErrorEvents e := by
  simp [serveErrorEvents]

/-- The only header the encoding tail can set is the protobuf content type. -/
theorem setHeader_mem_encodeEvents (accept : String) (v? : Option RVal) (k v : String)
    (h : Ev.setHeader k v ∈ encodeEvents accept v?) :
    k = "Content-Type" ∧ v = "application/x-protobuf" := by
  rcases v? with _ | val
  · simp [encodeEvents] at h
  · rcases val with b | s | ⟨j, p⟩
    · simp [encodeEvents] at h
    · simp [encodeEvents] at h
    · simp only [encodeEvents] at h
      split at h
      · rcases j with e | s <;> simp [jsonEvents, serveErrorEvents] at h
      · rcases p with _ | p
        · rcases j with e | s <;> simp [jsonEvents, serveErrorEvents] at h
        · rcases p with e | b
          · simp [serveErrorEvents] at h
          · simp at h
            exact ⟨h.1, h.2⟩

/-- The four route tables after `Handle`: each verb table is extended by the
new entry exactly when the prototype implements that verb's capability. -/
theorem Handle_routes_eq {α ρ κ : Type} (mux : ServeMuxM α ρ κ) (path : String)
    (impl : Proto α) (M : Methods (Bound α) ρ κ) (opts : List (MW κ)) :
    (mux.Handle path impl M opts).getRoutes
      = mux.getRoutes ++
        (if M.get.isSome then [(path, ⟨impl, M, mux.middleware ++ opts⟩)] else []) ∧
    (mux.Handle path impl M opts).postRoutes
      = mux.postRoutes ++
        (if M.post.isSome then [(path, ⟨impl, M, mux.middleware ++ opts⟩)] else []) ∧
    (mux.Handle path impl M opts).putRoutes
      = mux.putRoutes ++
        (if M.put.isSome then [(path, ⟨impl, M, mux.middleware ++ opts⟩)] else []) ∧
    (mux.Handle path impl M opts).deleteRoutes
      = mux.deleteRoutes ++
        (if M.delete.isSome then [(path, ⟨impl, M, mux.middleware ++ opts⟩)] else []) ∧
    (mux.Handle path impl M opts).middleware = mux.middleware := by
  simp only [ServeMuxM.Handle]
  split_ifs <;> simp

/-! ### Claim theorems -/

/-- Claim C3: for every non-nil error, `serveError` uses the error's carried
status code as the HTTP status when the error is a `StatusError` and otherwise
wraps it as a `StatusError` with status 400 and the error's message; the body
is the JSON object with fields `message` and `statusCode`, and the status line
is set to that code.  The last two conjuncts check the spec's scenario
`NewStatusError("not found", 404)` concretely. -/
theorem serveError_status_and_body (e : GoError) (m : String) (c : Int) :
    serveErrorEvents e
      = [Ev.writeHeader (serveErrorStatus e).StatusCode,
         Ev.write (strBytes (statusErrorJSON (serveErrorStatus e)))] ∧
    serveErrorStatus (GoError.statusErr { Err := m, StatusCode := c })
      = { Err := m, StatusCode := c } ∧
    serveErrorStatus (GoError.plain m) = { Err := m, StatusCode := 400 } ∧
    statusErrorJSON { Err := "not found", StatusCode := 404 }
      = "\x7b\"message\":\"not found\",\"statusCode\":404\x7d\n" ∧
    serveErrorEvents (NewStatusError "not found" 404)
      = [Ev.writeHeader 404,
         Ev.write (strBytes "\x7b\"message\":\"not found\",\"statusCode\":404\x7d\n")] := by
  refine ⟨rfl, rfl, rfl, by decide, by decide⟩

/-- Claim C4: a result whose dynamic type is a byte slice or a string is
written verbatim, with no JSON encoding and no content negotiation: the output
is a single raw write and is independent of the Accept header. -/
theorem raw_bytes_and_string_bypass_encoding (accept accept2 : String)
    (b : List Nat) (s : String) :
    encodeEvents accept (some (RVal.bytes b)) = [Ev.write b] ∧
    encodeEvents accept (some (RVal.str s)) = [Ev.write (strBytes s)] ∧
    encodeEvents accept (some (RVal.bytes b)) = encodeEvents accept2 (some (RVal.bytes b)) ∧
    encodeEvents accept (some (RVal.str s)) = encodeEvents accept2 (some (RVal.str s)) :=
  ⟨rfl, rfl, rfl, rfl⟩

/-- Claim C5: a non-raw result is JSON-encoded to the stream when the
lower-cased Accept header does not contain `application/x-protobuf` or the
value does not implement `proto.Message`; otherwise the protobuf content type
is set and the marshalled bytes are written. -/
theorem content_negotiation_json_or_proto (accept : String) (j : Except GoError String)
    (p : Option (Except GoError (List Nat))) (s : String) (b : List Nat) :
    (goContains (goToLower accept) "application/x-protobuf" = false →
      encodeEvents accept (some (RVal.other j p)) = jsonEvents j) ∧
    (p = none → encodeEvents accept (some (RVal.other j p)) = jsonEvents j) ∧
    jsonEvents (Except.ok s) = [Ev.write (strBytes s)] ∧
    (goContains (goToLower accept) "application/x-protobuf" = true →
      encodeEvents accept (some (RVal.other j (some (Except.ok b)))) =
        [Ev.setHeader "Content-Type" "application/x-protobuf", Ev.write b]) := by
  refine ⟨fun h => by simp [encodeEvents, h], fun hp => ?_, rfl, fun h => by simp [encodeEvents, h]⟩
  subst hp
  by_cases hc : goContains (goToLower accept) "application/x-protobuf" = false <;>
    simp [encodeEvents, hc]

/-- Witness for C5 at a concrete input: the Accept match is case-insensitive
and a protobuf-capable result is written with the protobuf content type. -/
theorem content_negotiation_json_or_proto_witness :
    encodeEvents "Application/X-Protobuf"
        (some (RVal.other (Except.ok "x") (some (Except.ok [1, 2, 3])))) =
      [Ev.setHeader "Content-Type" "application/x-protobuf", Ev.write [1, 2, 3]] :=
  (content_negotiation_json_or_proto "Application/X-Protobuf" (Except.ok "x")
    (some (Except.ok [1, 2, 3])) "x" [1, 2, 3]).2.2.2 (by decide)

/-- Claim C6 (the code as written): in the slice-retry path of `handler.serve`,
the element the retry binds is discarded — `z` is allocated but never passed to
`Unmarshal`, and index 0 of the dispatched one-element slice is overwritten
with `reflect.Indirect(z)`, the zero element.  Here the retry binds the element
`Alice` into the one-element slice, yet the dispatched slice holds the zero
element `""` instead of the bound object. -/
theorem slice_fallback_discards_bound_element :
    serveBind "" bugBinder (Proto.ptrSlice (some [])) = Except.ok (Bound.ptrSlice [""]) ∧
    bugBinder.bindSlice [] = Except.error (GoError.plain "empty slice bind failed") ∧
    bugBinder.bindSlice [""] = Except.ok ["Alice"] :=
  ⟨rfl, rfl, rfl⟩

/-- Claim C1: `Handle` registers the pattern exactly for the verbs whose
capability interface the prototype implements — each verb table is extended by
the new entry when the matching capability is present and is untouched when it
is not, and a prototype implementing none of the four leaves the mux
unchanged. -/
theorem handle_registers_exactly_implemented_verbs {α ρ κ : Type} (mux : ServeMuxM α ρ κ)
    (path : String) (impl : Proto α) (M : Methods (Bound α) ρ κ) (opts : List (MW κ)) :
    (mux.Handle path impl M opts).getRoutes
      = mux.getRoutes ++
        (if M.get.isSome then [(path, ⟨impl, M, mux.middleware ++ opts⟩)] else []) ∧
    (mux.Handle path impl M opts).postRoutes
      = mux.postRoutes ++
        (if M.post.isSome then [(path, ⟨impl, M, mux.middleware ++ opts⟩)] else []) ∧
    (mux.Handle path impl M opts).putRoutes
      = mux.putRoutes ++
        (if M.put.isSome then [(path, ⟨impl, M, mux.middleware ++ opts⟩)] else []) ∧
    (mux.Handle path impl M opts).deleteRoutes
      = mux.deleteRoutes ++
        (if M.delete.isSome then [(path, ⟨impl, M, mux.middleware ++ opts⟩)] else []) ∧
    (M.get = none → M.post = none → M.put = none → M.delete = none →
      mux.Handle path impl M opts = mux) := by
  have h := Handle_routes_eq mux path impl M opts
  refine ⟨h.1, h.2.1, h.2.2.1, h.2.2.2.1, fun h1 h2 h3 h4 => ?_⟩
  simp [ServeMuxM.Handle, h1, h2, h3, h4]

/-- Witness for C1: a Getter-only prototype on an empty mux lands in the GET
table alone. -/
theorem handle_registers_exactly_implemented_verbs_witness :
    (muxW.Handle "/hello" protoW getOnlyMethods []).getRoutes
      = [("/hello", ⟨protoW, getOnlyMethods, []⟩)] ∧
    (muxW.Handle "/hello" protoW getOnlyMethods []).postRoutes = [] := by
  have h := handle_registers_exactly_implemented_verbs muxW "/hello" protoW getOnlyMethods []
  exact ⟨by simpa [muxW, ServeMuxM.new, getOnlyMethods] using h.1,
         by simpa [muxW, ServeMuxM.new, getOnlyMethods] using h.2.1⟩

/-- Claim C10: the effective middleware of a route is the mux-wide middleware
followed by the per-route middleware, in those orders, and a concatenated chain
runs its first part from the initial context, then — only if that part
succeeded — its second part from the context the first part produced. -/
theorem effective_middleware_concatenation {α ρ κ : Type} (mux : ServeMuxM α ρ κ)
    (path : String) (impl : Proto α) (M : Methods (Bound α) ρ κ) (opts : List (MW κ))
    (ctx : κ) (r : Req) :
    ((mux.Handle path impl M opts).getRoutes
      = mux.getRoutes ++
        (if M.get.isSome then [(path, ⟨impl, M, mux.middleware ++ opts⟩)] else []) ∧
     (mux.Handle path impl M opts).postRoutes
      = mux.postRoutes ++
        (if M.post.isSome then [(path, ⟨impl, M, mux.middleware ++ opts⟩)] else []) ∧
     (mux.Handle path impl M opts).putRoutes
      = mux.putRoutes ++
        (if M.put.isSome then [(path, ⟨impl, M, mux.middleware ++ opts⟩)] else []) ∧
     (mux.Handle path impl M opts).deleteRoutes
      = mux.deleteRoutes ++
        (if M.delete.isSome then [(path, ⟨impl, M, mux.middleware ++ opts⟩)] else [])) ∧
    chainRun (mux.middleware ++ opts) ctx r =
      (match chainRun mux.middleware ctx r with
       | (c, none) => chainRun opts c r
       | (c, some e) => (c, some e)) := by
  have h := Handle_routes_eq mux path impl M opts
  exact ⟨⟨h.1, h.2.1, h.2.2.1, h.2.2.2.1⟩, chainRun_append mux.middleware opts ctx r⟩

/-- Claim C2: middleware run sequentially in order, each from the context the
previous one returned; the first error ends the request with the normalized
error response, and neither the later middleware nor the serve stage (so no
handler verb method) influences the outcome. -/
theorem middleware_error_short_circuits {κ : Type} (pre post : List (MW κ)) (f : MW κ)
    (ctx0 c c2 : κ) (r : Req) (e : GoError)
    (hpre : chainRun pre ctx0 r = (c, none)) (hf : f c r = (c2, some e)) :
    chainRun (pre ++ f :: post) ctx0 r = (c2, some e) ∧
    (∀ ms2 : List (MW κ), chainRun (pre ++ ms2) ctx0 r = chainRun ms2 c r) ∧
    (∀ (post2 : List (MW κ)) (serveFn : κ → Option RVal × Option GoError),
      handleEvents (pre ++ f :: post2) serveFn ctx0 r = hdrEvents ++ serveErrorEvents e) := by
  have hseq : ∀ ms2 : List (MW κ), chainRun (pre ++ ms2) ctx0 r = chainRun ms2 c r := by
    intro ms2
    rw [chainRun_append, hpre]
  have herr : ∀ post2 : List (MW κ), chainRun (pre ++ f :: post2) ctx0 r = (c2, some e) := by
    intro post2
    rw [hseq]
    simp [chainRun, hf]
  refine ⟨herr post, hseq, fun post2 serveFn => ?_⟩
  simp [handleEvents, herr post2]

/-- Witness for C2: a two-long chain whose second middleware fails; the third
middleware and the serve stage never matter. -/
theorem middleware_error_short_circuits_witness :
    chainRun ([mwInc] ++ mwBoom :: [mwInc]) 0 reqGET = (1, some (GoError.plain "boom")) ∧
    handleEvents ([mwInc] ++ mwBoom :: [mwInc]) serveFnW 0 reqGET
      = hdrEvents ++ serveErrorEvents (GoError.plain "boom") := by
  have h := middleware_error_short_circuits [mwInc] [mwInc] mwBoom 0 1 1 reqGET
    (GoError.plain "boom") rfl rfl
  exact ⟨h.1, h.2.2 [mwInc] serveFnW⟩

/-- Claim C9: every request — error paths included — starts with the fixed
`Content-Type: application/json; charset=utf-8` and
`Access-Control-Allow-Origin: *` headers, set before the middleware chain has
any effect, and the only later header write is the protobuf content-type
override on the binary success path. -/
theorem fixed_headers_set_first {κ : Type} (mws : List (MW κ))
    (serveFn : κ → Option RVal × Option GoError) (ctx0 : κ) (r : Req) :
    (handleEvents mws serveFn ctx0 r).take 2
      = [Ev.setHeader "Content-Type" "application/json; charset=utf-8",
         Ev.setHeader "Access-Control-Allow-Origin" "*"] ∧
    (∀ k v, Ev.setHeader k v ∈ (handleEvents mws serveFn ctx0 r).drop 2 →
      k = "Content-Type" ∧ v = "application/x-protobuf") := by
  have hsplit : ∀ k v,
      Ev.setHeader k v ∈
        (match chainRun mws ctx0 r with
         | (_, some e) => serveErrorEvents e
         | (ctx, none) =>
           match serveFn ctx with
           | (_, some e) => serveErrorEvents e
           | (v?, none) => encodeEvents r.accept v?) →
      k = "Content-Type" ∧ v = "application/x-protobuf" := by
    intro k v hm
    split at hm
    · exact absurd hm (setHeader_not_mem_serveErrorEvents _ k v)
    · split at hm
      · exact absurd hm (setHeader_not_mem_serveErrorEvents _ k v)
      · exact setHeader_mem_encodeEvents r.accept _ k v hm
  constructor
  · simp [handleEvents, hdrEvents]
  · intro k v hm
    refine hsplit k v ?_
    simpa [handleEvents, hdrEvents] using hm

/-- Witness for C9 at a concrete failing chain. -/
theorem fixed_headers_set_first_witness :
    (handleEvents [mwBoom] serveFnW 0 reqGET).take 2
      = [Ev.setHeader "Content-Type" "application/json; charset=utf-8",
         Ev.setHeader "Access-Control-Allow-Origin" "*"] :=
  (fixed_headers_set_first [mwBoom] serveFnW 0 reqGET).1

/-- Claim C8: when binding succeeded but the per-request instance does not
implement the capability matching the request method (or the method is outside
GET/POST/PUT/DELETE), `serve` returns a nil result and the unsupported-method
error, whose message contains the method and the request URI, and which the
error model renders with status 400. -/
theorem unsupported_method_error {α ρ κ : Type} (zero : α) (B : Binder α)
    (M : Methods (Bound α) ρ κ) (p : Proto α) (ctx : κ) (r : Req) (b : Bound α)
    (hb : serveBind zero B p = Except.ok b) (hcap : capFor M r.method = none) :
    serve zero B M p ctx r = (none, some (unsupportedErr r)) ∧
    unsupportedErr r
      = GoError.plain (r.method ++ " unsupported method for " ++ r.requestURI) ∧
    (∃ x y : String, goErrError (unsupportedErr r) = x ++ r.method ++ y) ∧
    (∃ x y : String, goErrError (unsupportedErr r) = x ++ r.requestURI ++ y) ∧
    serveErrorStatus (unsupportedErr r)
      = { Err := r.method ++ " unsupported method for " ++ r.requestURI,
          StatusCode := 400 } := by
  have hd : dispatch M b ctx r = (none, some (unsupportedErr r)) := by
    unfold dispatch
    split <;> simp_all [capFor]
  refine ⟨?_, rfl, ?_, ?_, rfl⟩
  · unfold serve
    rw [hb]
    exact hd
  · refine ⟨"", " unsupported method for " ++ r.requestURI, ?_⟩
    simp [goErrError, unsupportedErr, String.append_assoc]
  · exact ⟨r.method ++ " unsupported method for ", "", by
      simp [goErrError, unsupportedErr]⟩

/-- Witness for C8: a PATCH request against a prototype with no capabilities. -/
theorem unsupported_method_error_witness :
    serve "" idBinder noMethods (Proto.value "x") 0 reqPATCH
      = (none, some (unsupportedErr reqPATCH)) :=
  (unsupported_method_error "" idBinder noMethods (Proto.value "x") 0 reqPATCH
    (Bound.value "x") rfl rfl).1

/-- `freshInstance` always hands back the address that was fresh on entry. -/
theorem freshInstance_addr {α : Type} (zc : Cell α) (st : St α) (p : Option Nat) :
    (freshInstance zc st p).2 = st.next := by
  cases p <;> rfl

/-- `freshInstance` advances the allocation frontier by one. -/
theorem freshInstance_next {α : Type} (zc : Cell α) (st : St α) (p : Option Nat) :
    (freshInstance zc st p).1.next = st.next + 1 := by
  cases p <;> rfl

/-- `freshInstance` leaves every live cell unchanged. -/
theorem freshInstance_mem_lt {α : Type} (zc : Cell α) (st : St α) (p : Option Nat)
    (i : Nat) (h : i < st.next) :
    (freshInstance zc st p).1.mem i = st.mem i := by
  have hne : i ≠ st.next := Nat.ne_of_lt h
  cases p with
  | none => simp [freshInstance, St.alloc, hne]
  | some a => simp [freshInstance, St.alloc, St.write, hne]

/-- The fresh instance made from a non-nil prototype pointer starts as a copy
of the pointed-to value. -/
theorem freshInstance_copy {α : Type} (zc : Cell α) (st : St α) (a : Nat) :
    (freshInstance zc st (some a)).1.mem (freshInstance zc st (some a)).2 = st.mem a := by
  simp [freshInstance, St.alloc, St.write]

/-- The fresh instance made from a nil prototype pointer starts as the zero
value. -/
theorem freshInstance_zero {α : Type} (zc : Cell α) (st : St α) :
    (freshInstance zc st none).1.mem (freshInstance zc st none).2 = zc := by
  simp [freshInstance, St.alloc]

/-- The binding phase only touches the fresh instance's cell and fresh
allocations: every other live cell keeps its value. -/
theorem bindPhase_frame {α : Type} (ze : α) (B : Binder α) (st1 : St α) (addr : Nat)
    (i : Nat) (hia : i ≠ addr) (hin : i < st1.next) :
    (bindPhase ze B st1 addr).1.mem i = st1.mem i := by
  have hne : i ≠ st1.next := Nat.ne_of_lt hin
  simp only [bindPhase]
  split
  · simp [St.write, hia]
  · split
    · rfl
    · split
      · simp [St.alloc, St.write, hia, hne]
      · split <;> simp [St.alloc, St.write, hia, hne]

/-- Claim C7: for a pointer-held prototype, `serve` builds its per-request
instance at a fresh address — a shallow copy of the pointed-to value, or the
zero value when the pointer is nil — and neither construction nor binding
writes to any pre-existing cell, so the registered prototype is never
mutated. -/
theorem serve_fresh_instance_frame {α : Type} (zc : Cell α) (ze : α) (B : Binder α)
    (st : St α) (a0 : Nat) (h : a0 < st.next) :
    (serveBindSt zc ze B st (some a0)).2.1 = st.next ∧
    (serveBindSt zc ze B st (some a0)).2.1 ≠ a0 ∧
    (∀ i, i < st.next → (serveBindSt zc ze B st (some a0)).1.mem i = st.mem i) ∧
    (freshInstance zc st (some a0)).1.mem (freshInstance zc st (some a0)).2 = st.mem a0 ∧
    (freshInstance zc st none).1.mem (freshInstance zc st none).2 = zc := by
  have haddr : (serveBindSt zc ze B st (some a0)).2.1 = st.next := by
    simp [serveBindSt, freshInstance_addr]
  refine ⟨haddr, ?_, ?_, freshInstance_copy zc st a0, freshInstance_zero zc st⟩
  · rw [haddr]
    omega
  · intro i hi
    have h1 : (serveBindSt zc ze B st (some a0)).1
        = (bindPhase ze B (freshInstance zc st (some a0)).1
            (freshInstance zc st (some a0)).2).1 := rfl
    rw [h1, bindPhase_frame]
    · exact freshInstance_mem_lt zc st (some a0) i hi
    · rw [freshInstance_addr]
      omega
    · rw [freshInstance_next]
      omega

/-- Witness for C7: with a one-cell heap holding the prototype, serving leaves
the prototype cell intact and allocates the instance at the fresh address. -/
theorem serve_fresh_instance_frame_witness :
    (serveBindSt (Cell.structC "") "" idBinder stW (some 0)).2.1 = stW.next ∧
    (serveBindSt (Cell.structC "") "" idBinder stW (some 0)).1.mem 0 = stW.mem 0 := by
  have h := serve_fresh_instance_frame (Cell.structC "") "" idBinder stW 0 (by decide)
  exact ⟨h.1, h.2.2.1 0 (by decide)⟩

end Rest
